import Mathlib

/-!
Verification of the esp32flasher repository's ESP32 ROM-bootloader flashing
protocol against its natural-language specification.

The repository contains two generations of the flasher source:
an older self-contained `esp32_protocol.go` (4096-byte write blocks,
single-attempt `sync`), and the current generation consisting of
`esp32_types.go` plus the flasher file `unnamed/part_002` (1024-byte write
blocks, chip detection).  The current generation's protocol-layer file
(defining `sync` with retries, `readResponseRobust`, `detectChip`,
`spiAttach`, `sendCommand`, the SLIP codec and `calculateChecksum`) is not
among the source files; `part_002` calls those symbols.  Definitions below
are translated from whichever file contains them; the few engines whose
bodies are absent are modelled from the spec and marked as such in their
doc comments.

Bytes are modelled as `Nat` (each wire byte is < 256 in the source);
32-bit machine arithmetic is made explicit with `% 2 ^ 32` where Go's
`uint32` overflow matters.
-/

/-- Command opcode `ESP_FLASH_BEGIN` (esp32_types.go). -/
def ESP_FLASH_BEGIN : Nat := 0x02

/-- Command opcode `ESP_FLASH_DATA` (esp32_types.go). -/
def ESP_FLASH_DATA : Nat := 0x03

/-- Command opcode `ESP_FLASH_END` (esp32_types.go). -/
def ESP_FLASH_END : Nat := 0x04

/-- Command opcode `ESP_SYNC` (esp32_types.go). -/
def ESP_SYNC : Nat := 0x08

/-- Command opcode `ESP_SPI_ATTACH` (esp32_types.go). -/
def ESP_SPI_ATTACH : Nat := 0x0d

/-- SLIP frame delimiter `SLIP_END` (esp32_types.go). -/
def SLIP_END : Nat := 0xc0

/-- SLIP escape byte `SLIP_ESC` (esp32_types.go). -/
def SLIP_ESC : Nat := 0xdb

/-- SLIP escaped END `SLIP_ESC_END` (esp32_types.go). -/
def SLIP_ESC_END : Nat := 0xdc

/-- SLIP escaped ESC `SLIP_ESC_ESC` (esp32_types.go). -/
def SLIP_ESC_ESC : Nat := 0xdd

/-- Erase sector size `ESP_FLASH_SECTOR` (esp32_types.go). -/
def ESP_FLASH_SECTOR : Nat := 4096

/-- Flash write block size `ESP_FLASH_WRITE_SIZE = 0x400` (esp32_types.go);
both constructors in `part_002` set the session field `blockSize` to it. -/
def ESP_FLASH_WRITE_SIZE : Nat := 0x400

/-- Little-endian bytes of a 16-bit value, as written by Go's
`binary.LittleEndian.PutUint16`. -/
def le16 (n : Nat) : List Nat := [n % 256, n / 256 % 256]

/-- Little-endian bytes of a 32-bit value, as written by Go's
`binary.LittleEndian.PutUint32` (a value `≥ 2 ^ 32` is wrapped, matching
Go's conversion to `uint32`). -/
def le32 (n : Nat) : List Nat :=
  [n % 256, n / 256 % 256, n / 65536 % 256, n / 16777216 % 256]

/-- Decode four little-endian bytes back to the 32-bit value they carry. -/
def le32get (l : List Nat) : Nat :=
  l.getD 0 0 + 256 * l.getD 1 0 + 65536 * l.getD 2 0 + 16777216 * l.getD 3 0

/-- SLIP escaping of one byte: the `switch` body of `slipEncode`
(esp32_protocol.go lines 173-184). -/
def slipEscapeByte (b : Nat) : List Nat :=
  if b = SLIP_END then [SLIP_ESC, SLIP_ESC_END]
  else if b = SLIP_ESC then [SLIP_ESC, SLIP_ESC_ESC]
  else [b]

/-- Body of the `slipEncode` loop: escape every data byte in order. -/
def slipEncodeBody : List Nat → List Nat
  | [] => []
  | b :: rest => slipEscapeByte b ++ slipEncodeBody rest

/-- `slipEncode` (esp32_protocol.go lines 169-188): an END byte, the
escaped data, and a final END byte. -/
def slipEncode (data : List Nat) : List Nat :=
  SLIP_END :: (slipEncodeBody data ++ [SLIP_END])

/-- Result of `slipDecode`: the decoded bytes, or one of its two error
classes (`"invalid SLIP packet"` and `"invalid escape sequence"` in the
source). -/
inductive SlipResult where
  | ok (bytes : List Nat)
  | malformedFrame
  | invalidEscape
deriving DecidableEq

/-- Prepend a byte to the buffer of a successful decode; errors pass
through.  This is the `buf.WriteByte` step of the `slipDecode` loop. -/
def consByte (b : Nat) : SlipResult → SlipResult
  | .ok l => .ok (b :: l)
  | .malformedFrame => .malformedFrame
  | .invalidEscape => .invalidEscape

/-- The `for` loop of `slipDecode` (esp32_protocol.go lines 199-216) over
the interior bytes, with the `escaped` flag as state.  When the bytes run
out the buffer is returned even if `escaped` is still set, exactly as the
source falls through to `return buf.Bytes(), nil`. -/
def slipDecodeLoop : List Nat → Bool → SlipResult
  | [], _ => .ok []
  | b :: rest, true =>
    if b = SLIP_ESC_END then consByte SLIP_END (slipDecodeLoop rest false)
    else if b = SLIP_ESC_ESC then consByte SLIP_ESC (slipDecodeLoop rest false)
    else .invalidEscape
  | b :: rest, false =>
    if b = SLIP_ESC then slipDecodeLoop rest true
    else consByte b (slipDecodeLoop rest false)

/-- `slipDecode` (esp32_protocol.go lines 191-219): reject inputs shorter
than 2 bytes or without leading/trailing END, then run the unescaping loop
over the interior. -/
def slipDecode (data : List Nat) : SlipResult :=
  if data.length < 2 ∨ data.head? ≠ some SLIP_END ∨ data.getLast? ≠ some SLIP_END then
    .malformedFrame
  else
    slipDecodeLoop (data.drop 1).dropLast false

/-- State-threading version of the `slipDecode` loop, used to reason about
a prefix of the interior: returns the bytes written so far and the final
`escaped` flag, or `none` if the prefix already errors. -/
def slipRun : List Nat → Bool → Option (List Nat × Bool)
  | [], s => some ([], s)
  | b :: rest, true =>
    if b = SLIP_ESC_END then (slipRun rest false).map (fun p => (SLIP_END :: p.1, p.2))
    else if b = SLIP_ESC_ESC then (slipRun rest false).map (fun p => (SLIP_ESC :: p.1, p.2))
    else none
  | b :: rest, false =>
    if b = SLIP_ESC then slipRun rest true
    else (slipRun rest false).map (fun p => (b :: p.1, p.2))

/-- Prepend a list of already-decoded bytes to a loop result. -/
def consList (w : List Nat) : SlipResult → SlipResult
  | .ok l => .ok (w ++ l)
  | .malformedFrame => .malformedFrame
  | .invalidEscape => .invalidEscape

theorem consList_nil (r : SlipResult) : consList [] r = r := by
  cases r <;> rfl

theorem consByte_consList (a : Nat) (w : List Nat) (r : SlipResult) :
    consByte a (consList w r) = consList (a :: w) r := by
  cases r <;> rfl

theorem slipDecodeLoop_esc_end (rest : List Nat) :
    slipDecodeLoop (SLIP_ESC_END :: rest) true = consByte SLIP_END (slipDecodeLoop rest false) :=
  rfl

theorem slipDecodeLoop_esc_esc (rest : List Nat) :
    slipDecodeLoop (SLIP_ESC_ESC :: rest) true = consByte SLIP_ESC (slipDecodeLoop rest false) :=
  rfl

theorem slipDecodeLoop_true_other (b : Nat) (rest : List Nat)
    (h1 : ¬b = SLIP_ESC_END) (h2 : ¬b = SLIP_ESC_ESC) :
    slipDecodeLoop (b :: rest) true = .invalidEscape := by
  unfold slipDecodeLoop
  rw [if_neg h1, if_neg h2]

theorem slipDecodeLoop_esc_false (rest : List Nat) :
    slipDecodeLoop (SLIP_ESC :: rest) false = slipDecodeLoop rest true :=
  rfl

theorem slipDecodeLoop_other_false (b : Nat) (rest : List Nat) (h : ¬b = SLIP_ESC) :
    slipDecodeLoop (b :: rest) false = consByte b (slipDecodeLoop rest false) := by
  conv_lhs => unfold slipDecodeLoop
  rw [if_neg h]

theorem slipRun_esc_end (rest : List Nat) :
    slipRun (SLIP_ESC_END :: rest) true =
      (slipRun rest false).map (fun p => (SLIP_END :: p.1, p.2)) :=
  rfl

theorem slipRun_esc_esc (rest : List Nat) :
    slipRun (SLIP_ESC_ESC :: rest) true =
      (slipRun rest false).map (fun p => (SLIP_ESC :: p.1, p.2)) :=
  rfl

theorem slipRun_true_other (b : Nat) (rest : List Nat)
    (h1 : ¬b = SLIP_ESC_END) (h2 : ¬b = SLIP_ESC_ESC) :
    slipRun (b :: rest) true = none := by
  unfold slipRun
  rw [if_neg h1, if_neg h2]

theorem slipRun_esc_false (rest : List Nat) :
    slipRun (SLIP_ESC :: rest) false = slipRun rest true :=
  rfl

theorem slipRun_other_false (b : Nat) (rest : List Nat) (h : ¬b = SLIP_ESC) :
    slipRun (b :: rest) false = (slipRun rest false).map (fun p => (b :: p.1, p.2)) := by
  conv_lhs => unfold slipRun
  rw [if_neg h]

/-- Splitting the decode loop at a cleanly-decoded prefix. -/
theorem slipDecodeLoop_append (u : List Nat) :
    ∀ (s : Bool) (w : List Nat) (s2 : Bool), slipRun u s = some (w, s2) →
      ∀ v, slipDecodeLoop (u ++ v) s = consList w (slipDecodeLoop v s2) := by
  induction u with
  | nil =>
    intro s w s2 h v
    simp [slipRun] at h
    obtain ⟨rfl, rfl⟩ := h
    simp [consList_nil]
  | cons b rest ih =>
    intro s w s2 h v
    cases s with
    | true =>
      by_cases h1 : b = SLIP_ESC_END
      · subst h1
        rw [slipRun_esc_end, Option.map_eq_some'] at h
        obtain ⟨⟨w', s'⟩, hrun, hE⟩ := h
        injection hE with hw hs
        subst hw
        subst hs
        rw [List.cons_append, slipDecodeLoop_esc_end,
          ih false w' s' hrun v, consByte_consList]
      · by_cases h2 : b = SLIP_ESC_ESC
        · subst h2
          rw [slipRun_esc_esc, Option.map_eq_some'] at h
          obtain ⟨⟨w', s'⟩, hrun, hE⟩ := h
          injection hE with hw hs
          subst hw
          subst hs
          rw [List.cons_append, slipDecodeLoop_esc_esc,
            ih false w' s' hrun v, consByte_consList]
        · rw [slipRun_true_other b rest h1 h2] at h
          exact absurd h (by simp)
    | false =>
      by_cases h1 : b = SLIP_ESC
      · subst h1
        rw [slipRun_esc_false] at h
        rw [List.cons_append, slipDecodeLoop_esc_false]
        exact ih true w s2 h v
      · rw [slipRun_other_false b rest h1, Option.map_eq_some'] at h
        obtain ⟨⟨w', s'⟩, hrun, hE⟩ := h
        injection hE with hw hs
        subst hw
        subst hs
        rw [List.cons_append, slipDecodeLoop_other_false b (rest ++ v) h1,
          ih false w' s' hrun v, consByte_consList]

/-- The decode loop can only fail with the invalid-escape error, never the
malformed-frame error. -/
theorem slipDecodeLoop_ne_malformed (l : List Nat) :
    ∀ s, slipDecodeLoop l s ≠ .malformedFrame := by
  induction l with
  | nil => intro s; simp [slipDecodeLoop]
  | cons b rest ih =>
    intro s
    cases s with
    | true =>
      simp only [slipDecodeLoop]
      split_ifs with h1 h2
      · intro h; exact ih false (by cases hr : slipDecodeLoop rest false <;>
          simp [consByte, hr] at h ⊢)
      · intro h; exact ih false (by cases hr : slipDecodeLoop rest false <;>
          simp [consByte, hr] at h ⊢)
      · simp
    | false =>
      simp only [slipDecodeLoop]
      split_ifs with h1
      · exact ih true
      · intro h; exact ih false (by cases hr : slipDecodeLoop rest false <;>
          simp [consByte, hr] at h ⊢)

/-- Unfolding `slipDecode` on a well-delimited frame. -/
theorem slipDecode_wrap (interior : List Nat) :
    slipDecode (SLIP_END :: (interior ++ [SLIP_END])) = slipDecodeLoop interior false := by
  have hlast : (SLIP_END :: (interior ++ [SLIP_END])).getLast? = some SLIP_END := by
    rw [show SLIP_END :: (interior ++ [SLIP_END]) = (SLIP_END :: interior) ++ [SLIP_END]
      from by simp]
    exact List.getLast?_concat _
  have hcond : ¬((SLIP_END :: (interior ++ [SLIP_END])).length < 2 ∨
      (SLIP_END :: (interior ++ [SLIP_END])).head? ≠ some SLIP_END ∨
      (SLIP_END :: (interior ++ [SLIP_END])).getLast? ≠ some SLIP_END) := by
    push_neg
    refine ⟨?_, rfl, hlast⟩
    simp only [List.length_cons, List.length_append]
    omega
  unfold slipDecode
  rw [if_neg hcond]
  congr 1
  simp

/-- No byte produced by the escaping step is a raw END byte. -/
theorem slipEncodeBody_ne_end (x : List Nat) :
    ∀ b ∈ slipEncodeBody x, b ≠ SLIP_END := by
  induction x with
  | nil => simp [slipEncodeBody]
  | cons a rest ih =>
    intro b hb
    simp only [slipEncodeBody, List.mem_append] at hb
    rcases hb with hb | hb
    · unfold slipEscapeByte at hb
      split_ifs at hb with h1 h2
      · simp only [List.mem_cons, List.mem_singleton, List.not_mem_nil, or_false] at hb
        rcases hb with rfl | rfl <;> decide
      · simp only [List.mem_cons, List.mem_singleton, List.not_mem_nil, or_false] at hb
        rcases hb with rfl | rfl <;> decide
      · simp only [List.mem_singleton] at hb
        subst hb
        exact h1
    · exact ih b hb

/-- Decoding inverts escaping byte-for-byte. -/
theorem slipDecodeLoop_encodeBody (x : List Nat) :
    slipDecodeLoop (slipEncodeBody x) false = .ok x := by
  induction x with
  | nil => rfl
  | cons b rest ih =>
    by_cases h1 : b = SLIP_END
    · subst h1
      show slipDecodeLoop (slipEscapeByte SLIP_END ++ slipEncodeBody rest) false = _
      rw [show slipEscapeByte SLIP_END = [SLIP_ESC, SLIP_ESC_END] from rfl, List.cons_append,
        List.cons_append, List.nil_append, slipDecodeLoop_esc_false, slipDecodeLoop_esc_end, ih]
      rfl
    · by_cases h2 : b = SLIP_ESC
      · subst h2
        show slipDecodeLoop (slipEscapeByte SLIP_ESC ++ slipEncodeBody rest) false = _
        rw [show slipEscapeByte SLIP_ESC = [SLIP_ESC, SLIP_ESC_ESC] from rfl, List.cons_append,
          List.cons_append, List.nil_append, slipDecodeLoop_esc_false, slipDecodeLoop_esc_esc, ih]
        rfl
      · show slipDecodeLoop (slipEscapeByte b ++ slipEncodeBody rest) false = _
        rw [show slipEscapeByte b = [b] from by unfold slipEscapeByte; rw [if_neg h1, if_neg h2],
          List.cons_append, List.nil_append, slipDecodeLoop_other_false b _ h2, ih]
        rfl

/-- C4.  For every byte sequence x, slipDecode (slipEncode x) succeeds and
returns x; slipEncode x begins and ends with 0xC0; and its interior (the
bytes strictly between the two delimiters) contains no 0xC0 byte at all,
in particular no unescaped one. -/
theorem claim_C4 (x : List Nat) :
    slipDecode (slipEncode x) = .ok x
    ∧ (slipEncode x).head? = some 0xc0
    ∧ (slipEncode x).getLast? = some 0xc0
    ∧ ∀ b ∈ ((slipEncode x).drop 1).dropLast, b ≠ 0xc0 := by
  refine ⟨?_, ?_, ?_, ?_⟩
  · show slipDecode (SLIP_END :: (slipEncodeBody x ++ [SLIP_END])) = .ok x
    rw [slipDecode_wrap, slipDecodeLoop_encodeBody]
  · rfl
  · show (SLIP_END :: (slipEncodeBody x ++ [SLIP_END])).getLast? = some 0xc0
    rw [show SLIP_END :: (slipEncodeBody x ++ [SLIP_END]) =
      (SLIP_END :: slipEncodeBody x) ++ [SLIP_END] from by simp]
    exact List.getLast?_concat _
  · intro b hb
    have : ((slipEncode x).drop 1).dropLast = slipEncodeBody x := by
      simp [slipEncode]
    rw [this] at hb
    exact slipEncodeBody_ne_end x b hb

/-- C5 (amended).  slipDecode fails with the malformed-frame error exactly
when the input has length < 2 or lacks a leading or trailing 0xC0; it
fails with the invalid-escape error when an ESC byte inside the frame is
followed by any byte other than 0xDC/0xDD; but a frame that ends
mid-escape (an ESC immediately before the trailing END) does NOT fail:
the dangling ESC is silently dropped and the decoded prefix is returned. -/
theorem claim_C5 :
    (∀ data : List Nat, slipDecode data = .malformedFrame ↔
      (data.length < 2 ∨ data.head? ≠ some 0xc0 ∨ data.getLast? ≠ some 0xc0))
    ∧ (∀ (u : List Nat) (b : Nat) (v w : List Nat), slipRun u false = some (w, false) →
        b ≠ 0xdc → b ≠ 0xdd →
        slipDecode (SLIP_END :: ((u ++ (SLIP_ESC :: b :: v)) ++ [SLIP_END])) = .invalidEscape)
    ∧ (∀ (u w : List Nat), slipRun u false = some (w, false) →
        slipDecode (SLIP_END :: ((u ++ [SLIP_ESC]) ++ [SLIP_END])) = .ok w) := by
  refine ⟨?_, ?_, ?_⟩
  · intro data
    unfold slipDecode
    split_ifs with hg
    · exact iff_of_true rfl hg
    · exact iff_of_false (slipDecodeLoop_ne_malformed _ false) hg
  · intro u b v w hrun hb1 hb2
    rw [slipDecode_wrap, slipDecodeLoop_append u false w false hrun]
    have hb1E : ¬b = SLIP_ESC_END := hb1
    have hb2E : ¬b = SLIP_ESC_ESC := hb2
    have hloop : slipDecodeLoop (SLIP_ESC :: b :: v) false = .invalidEscape := by
      rw [slipDecodeLoop_esc_false, slipDecodeLoop_true_other b v hb1E hb2E]
    rw [hloop]
    rfl
  · intro u w hrun
    rw [slipDecode_wrap, slipDecodeLoop_append u false w false hrun]
    have hloop : slipDecodeLoop [SLIP_ESC] false = .ok [] := by
      rw [slipDecodeLoop_esc_false]
      rfl
    rw [hloop]
    simp [consList]

/-- Counterexample to C5 as stated: the frame `C0 DB C0` ends mid-escape,
yet slipDecode succeeds (returning the empty payload) instead of failing
with an invalid-escape error. -/
theorem claim_C5_counterexample :
    slipDecode [0xc0, 0xdb, 0xc0] = .ok [] := by decide

/-- Witness for C5: the three parts instantiated at concrete frames. -/
theorem claim_C5_witness :
    slipDecode [0xc0] = .malformedFrame
    ∧ slipDecode [0xc0, 0xdb, 0x00, 0xc0] = .invalidEscape
    ∧ slipDecode [0xc0, 0xdb, 0xc0] = .ok [] := by
  refine ⟨?_, ?_, ?_⟩
  · exact (claim_C5.1 [0xc0]).mpr (by decide)
  · exact claim_C5.2.1 [] 0x00 [] [] rfl (by decide) (by decide)
  · exact claim_C5.2.2 [] [] rfl

/-- `calculateChecksum` (esp32_protocol.go lines 441-447): XOR-reduce the
bytes from seed 0xEF, mask to 8 bits. -/
def calculateChecksum (data : List Nat) : Nat :=
  (data.foldl (fun c b => c ^^^ b) 0xEF) &&& 0xFF

/-- Packet built by `sendCommand` (esp32_protocol.go lines 222-235):
direction 0x00, command byte, little-endian 16-bit payload size,
little-endian 32-bit checksum, then the payload. -/
def sendCommandPacket (cmd : Nat) (data : List Nat) (checksum : Nat) : List Nat :=
  0x00 :: cmd :: (le16 data.length ++ (le32 checksum ++ data))

/-- The 36-byte SYNC payload `0x07 0x07 0x12 0x20` + 32 bytes `0x55`
(esp32_protocol.go lines 321-328). -/
def syncPayload : List Nat := 0x07 :: 0x07 :: 0x12 :: 0x20 :: List.replicate 32 0x55

/-- The SYNC request packet, sent as `sendCommand(ESP_SYNC, syncData, 0)`
(esp32_protocol.go line 336). -/
def syncPacket : List Nat := sendCommandPacket ESP_SYNC syncPayload 0

/-- The SPI_ATTACH request packet: 8 zero bytes, checksum 0
(esp32_protocol.go lines 399-407). -/
def spiAttachPacket : List Nat := sendCommandPacket ESP_SPI_ATTACH (List.replicate 8 0) 0

/-- Erase size computed by `flashBegin` (part_002 line 344):
`((size + 4096 - 1) / 4096) * 4096` in Go `uint32` arithmetic.  The sum is
reduced `% 2 ^ 32` exactly where the 32-bit addition can wrap; the final
product is at most `(2 ^ 32 / 4096) * 4096 < 2 ^ 32` and cannot wrap. -/
def eraseSizeFor (size : Nat) : Nat :=
  (size + ESP_FLASH_SECTOR - 1) % 2 ^ 32 / ESP_FLASH_SECTOR * ESP_FLASH_SECTOR

/-- Block count computed by `flashBegin` (part_002 line 343):
`(size + blockSize - 1) / blockSize` in Go `uint32` arithmetic. -/
def numBlocksFor (blockSize size : Nat) : Nat :=
  (size + blockSize - 1) % 2 ^ 32 / blockSize

/-- The 16-byte FLASH_BEGIN payload (part_002 lines 351-355): little-endian
words erase size, block count, block size, offset. -/
def flashBeginData (blockSize size offset : Nat) : List Nat :=
  le32 (eraseSizeFor size) ++ le32 (numBlocksFor blockSize size) ++
    le32 blockSize ++ le32 offset

/-- The FLASH_BEGIN request packet, sent with checksum 0 (part_002 line 357). -/
def flashBeginPacket (blockSize size offset : Nat) : List Nat :=
  sendCommandPacket ESP_FLASH_BEGIN (flashBeginData blockSize size offset) 0

/-- The 16-byte FLASH_DATA sub-header (part_002 lines 289-293): data size,
sequence number, two reserved zero words. -/
def flashDataHeader (blk : List Nat) (seq : Nat) : List Nat :=
  le32 blk.length ++ le32 seq ++ le32 0 ++ le32 0

/-- The FLASH_DATA request packet (part_002 lines 295-299): payload is the
sub-header followed by the block bytes, and the checksum argument is
`calculateChecksum(data)` over the block bytes only. -/
def flashDataPacket (blk : List Nat) (seq : Nat) : List Nat :=
  sendCommandPacket ESP_FLASH_DATA (flashDataHeader blk seq ++ blk) (calculateChecksum blk)

/-- The SLIP-encoded FLASH_DATA frame as it goes on the wire. -/
def flashDataFrame (blk : List Nat) (seq : Nat) : List Nat :=
  slipEncode (flashDataPacket blk seq)

/-- The FLASH_END request packet: 4 zero bytes, checksum 0 (part_002 lines
390-393). -/
def flashEndPacket : List Nat := sendCommandPacket ESP_FLASH_END (le32 0) 0

/-- Bytes 4..8 of any request packet are the little-endian checksum field. -/
theorem sendCommandPacket_checksum (cmd : Nat) (data : List Nat) (chk : Nat) :
    ((sendCommandPacket cmd data chk).drop 4).take 4 = le32 chk := by
  rfl

/-- C6.  calculateChecksum XOR-reduces from seed 0xEF and masks to 8 bits,
so every result is < 256; the checksum of the empty string is 0xEF and of
[0xEF] is 0; the FLASH_DATA packet carries the checksum of the block data
bytes only (not the 16-byte sub-header), while the SYNC, SPI_ATTACH,
FLASH_BEGIN and FLASH_END packets carry checksum field 0. -/
theorem claim_C6 :
    (∀ data : List Nat, calculateChecksum data < 256)
    ∧ calculateChecksum [] = 0xEF
    ∧ calculateChecksum [0xEF] = 0
    ∧ (∀ (blk : List Nat) (seq : Nat),
        ((flashDataPacket blk seq).drop 4).take 4 = le32 (calculateChecksum blk))
    ∧ (syncPacket.drop 4).take 4 = [0, 0, 0, 0]
    ∧ (spiAttachPacket.drop 4).take 4 = [0, 0, 0, 0]
    ∧ (∀ size offset : Nat,
        ((flashBeginPacket ESP_FLASH_WRITE_SIZE size offset).drop 4).take 4 = [0, 0, 0, 0])
    ∧ (flashEndPacket.drop 4).take 4 = [0, 0, 0, 0] := by
  refine ⟨?_, by decide, by decide, ?_, ?_, ?_, ?_, ?_⟩
  · intro data
    have h : calculateChecksum data ≤ 0xFF := Nat.and_le_right
    omega
  · intro blk seq
    exact sendCommandPacket_checksum _ _ _
  · exact sendCommandPacket_checksum _ _ _
  · exact sendCommandPacket_checksum _ _ _
  · intro size offset
    exact sendCommandPacket_checksum _ _ _
  · exact sendCommandPacket_checksum _ _ _

/-- C1 (amended).  For every image size with `size + 4095 < 2 ^ 32` and
every offset, the FLASH_BEGIN payload built by flashBegin with the session
block size 1024 is the four little-endian words (erase_size, num_blocks,
block_size, offset) with erase_size = ceil(size/4096)*4096 (a multiple of
4096 and ≥ size) and num_blocks = ceil(size/1024).  For larger uint32
sizes the 32-bit addition wraps and erase_size is smaller than size. -/
theorem claim_C1 (size offset : Nat) (h : size + 4095 < 2 ^ 32) :
    flashBeginData ESP_FLASH_WRITE_SIZE size offset =
      le32 ((size + 4095) / 4096 * 4096) ++ le32 ((size + 1023) / 1024) ++
        le32 1024 ++ le32 offset
    ∧ eraseSizeFor size = (size + 4095) / 4096 * 4096
    ∧ eraseSizeFor size % 4096 = 0
    ∧ size ≤ eraseSizeFor size
    ∧ numBlocksFor ESP_FLASH_WRITE_SIZE size = (size + 1023) / 1024 := by
  have he : eraseSizeFor size = (size + 4095) / 4096 * 4096 := by
    simp only [eraseSizeFor, ESP_FLASH_SECTOR]
    rw [Nat.mod_eq_of_lt (by omega)]
    omega
  have hn : numBlocksFor ESP_FLASH_WRITE_SIZE size = (size + 1023) / 1024 := by
    simp only [numBlocksFor, ESP_FLASH_WRITE_SIZE]
    rw [Nat.mod_eq_of_lt (by omega)]
    omega
  refine ⟨?_, he, ?_, ?_, hn⟩
  · show flashBeginData 1024 size offset = _
    simp only [flashBeginData]
    rw [show numBlocksFor 1024 size = numBlocksFor ESP_FLASH_WRITE_SIZE size from rfl, he, hn]
  · rw [he]
    exact Nat.mul_mod_left _ _
  · rw [he]
    omega

/-- Counterexample to C1 as stated: at the in-range uint32 image size
4294963201 the 32-bit sum `size + 4095` wraps to 0, so the erase-size word
of the FLASH_BEGIN payload is 0, which is not ≥ the image size. -/
theorem claim_C1_counterexample :
    eraseSizeFor 4294963201 = 0
    ∧ ¬(4294963201 ≤ eraseSizeFor 4294963201)
    ∧ le32get ((flashBeginData ESP_FLASH_WRITE_SIZE 4294963201 0).take 4) = 0 := by
  decide

/-- Witness for C1 at the spec's round-trip scenario: image size 4100 at
offset 0x10000 gives erase size 8192 and 5 blocks of 1024. -/
theorem claim_C1_witness :
    4100 + 4095 < 2 ^ 32
    ∧ (flashBeginData ESP_FLASH_WRITE_SIZE 4100 65536 =
        le32 ((4100 + 4095) / 4096 * 4096) ++ le32 ((4100 + 1023) / 1024) ++
          le32 1024 ++ le32 65536
      ∧ eraseSizeFor 4100 = (4100 + 4095) / 4096 * 4096
      ∧ eraseSizeFor 4100 % 4096 = 0
      ∧ 4100 ≤ eraseSizeFor 4100
      ∧ numBlocksFor ESP_FLASH_WRITE_SIZE 4100 = (4100 + 1023) / 1024) :=
  ⟨by norm_num, claim_C1 4100 65536 (by norm_num)⟩

/-- Outcome of validating a command response, mirroring the error returns
of the source: `tooShort` and `badHeader` are `sync`'s two distinct header
errors, `invalid` is the combined header error of the other commands, and
`targetErr` carries the non-zero status byte together with the error byte
when the source reads it (`sync`, `spiAttach`) or `none` when it reports
the status alone (`flashBegin`, `flashData` in part_002). -/
inductive CmdResult where
  | ok
  | tooShort
  | badHeader
  | invalid
  | targetErr (status : Nat) (errCode : Option Nat)
deriving DecidableEq

/-- Response validation of `sync` (esp32_protocol.go lines 354-371). -/
def syncCheck (r : List Nat) : CmdResult :=
  if r.length < 8 then .tooShort
  else if r.getD 0 0 ≠ 1 ∨ r.getD 1 0 ≠ ESP_SYNC then .badHeader
  else if 12 ≤ r.length then
    (if r.getD (r.length - 4) 0 ≠ 0 then
      .targetErr (r.getD (r.length - 4) 0) (some (r.getD (r.length - 3) 0))
    else .ok)
  else .ok

/-- Response validation of `spiAttach` (esp32_protocol.go lines 420-431). -/
def spiAttachCheck (r : List Nat) : CmdResult :=
  if r.length < 8 ∨ r.getD 0 0 ≠ 1 ∨ r.getD 1 0 ≠ ESP_SPI_ATTACH then .invalid
  else if 12 ≤ r.length then
    (if r.getD (r.length - 4) 0 ≠ 0 then
      .targetErr (r.getD (r.length - 4) 0) (some (r.getD (r.length - 3) 0))
    else .ok)
  else .ok

/-- Response validation of `flashBegin` (part_002 lines 366-375). -/
def flashBeginCheck (r : List Nat) : CmdResult :=
  if r.length < 8 ∨ r.getD 0 0 ≠ 1 ∨ r.getD 1 0 ≠ ESP_FLASH_BEGIN then .invalid
  else if 12 ≤ r.length then
    (if r.getD (r.length - 4) 0 ≠ 0 then .targetErr (r.getD (r.length - 4) 0) none
    else .ok)
  else .ok

/-- Response validation of one `flashData` attempt (part_002 lines 316-329). -/
def flashDataCheck (r : List Nat) : CmdResult :=
  if r.length < 8 ∨ r.getD 0 0 ≠ 1 ∨ r.getD 1 0 ≠ ESP_FLASH_DATA then .invalid
  else if 12 ≤ r.length then
    (if r.getD (r.length - 4) 0 ≠ 0 then .targetErr (r.getD (r.length - 4) 0) none
    else .ok)
  else .ok

/-- Response validation of `flashEnd` (part_002 lines 402-404, and equally
esp32_protocol.go lines 579-581): header only, no trailing-status check. -/
def flashEndCheck (r : List Nat) : CmdResult :=
  if r.length < 8 ∨ r.getD 0 0 ≠ 1 ∨ r.getD 1 0 ≠ ESP_FLASH_END then .invalid
  else .ok

/-- Header predicate of the spec's success criterion:
`len ≥ 8 ∧ bytes[0] = 0x01 ∧ bytes[1] = C`. -/
def specHeaderOk (c : Nat) (r : List Nat) : Prop :=
  8 ≤ r.length ∧ r.getD 0 0 = 1 ∧ r.getD 1 0 = c

/-- Full acceptance predicate of the spec: the header is valid and any
trailing status (present when `len ≥ 12`) is zero. -/
def specAccepts (c : Nat) (r : List Nat) : Prop :=
  specHeaderOk c r ∧ (12 ≤ r.length → r.getD (r.length - 4) 0 = 0)

instance (c : Nat) (r : List Nat) : Decidable (specHeaderOk c r) := by
  unfold specHeaderOk
  infer_instance

instance (c : Nat) (r : List Nat) : Decidable (specAccepts c r) := by
  unfold specAccepts
  infer_instance

/-- C3 (amended).  SYNC, SPI_ATTACH, FLASH_BEGIN and FLASH_DATA accept a
response exactly when len ≥ 8, bytes[0] = 0x01, bytes[1] = C and any
trailing status byte (len ≥ 12) is zero, and fail with a target error
carrying status = bytes[len-4] when it is non-zero (SYNC and SPI_ATTACH
also report bytes[len-3]; FLASH_BEGIN and FLASH_DATA report the status
alone).  FLASH_END checks only the header and accepts responses with a
non-zero trailing status. -/
theorem claim_C3 (r : List Nat) :
    (syncCheck r = .ok ↔ specAccepts ESP_SYNC r)
    ∧ (spiAttachCheck r = .ok ↔ specAccepts ESP_SPI_ATTACH r)
    ∧ (flashBeginCheck r = .ok ↔ specAccepts ESP_FLASH_BEGIN r)
    ∧ (flashDataCheck r = .ok ↔ specAccepts ESP_FLASH_DATA r)
    ∧ (specHeaderOk ESP_SYNC r → 12 ≤ r.length → r.getD (r.length - 4) 0 ≠ 0 →
        syncCheck r = .targetErr (r.getD (r.length - 4) 0) (some (r.getD (r.length - 3) 0)))
    ∧ (specHeaderOk ESP_SPI_ATTACH r → 12 ≤ r.length → r.getD (r.length - 4) 0 ≠ 0 →
        spiAttachCheck r = .targetErr (r.getD (r.length - 4) 0) (some (r.getD (r.length - 3) 0)))
    ∧ (specHeaderOk ESP_FLASH_BEGIN r → 12 ≤ r.length → r.getD (r.length - 4) 0 ≠ 0 →
        flashBeginCheck r = .targetErr (r.getD (r.length - 4) 0) none)
    ∧ (specHeaderOk ESP_FLASH_DATA r → 12 ≤ r.length → r.getD (r.length - 4) 0 ≠ 0 →
        flashDataCheck r = .targetErr (r.getD (r.length - 4) 0) none)
    ∧ (flashEndCheck r = .ok ↔ specHeaderOk ESP_FLASH_END r) := by
  refine ⟨?_, ?_, ?_, ?_, ?_, ?_, ?_, ?_, ?_⟩
  · unfold syncCheck
    split_ifs with h1 h2 h3 h4 <;>
      simp_all [specAccepts, specHeaderOk] <;> omega
  · unfold spiAttachCheck
    split_ifs with h1 h2 h3 <;>
      simp_all [specAccepts, specHeaderOk] <;> omega
  · unfold flashBeginCheck
    split_ifs with h1 h2 h3 <;>
      simp_all [specAccepts, specHeaderOk] <;> omega
  · unfold flashDataCheck
    split_ifs with h1 h2 h3 <;>
      simp_all [specAccepts, specHeaderOk] <;> omega
  · intro hh h12 hs
    unfold syncCheck
    rw [if_neg (by omega), if_neg (by push_neg; exact ⟨hh.2.1, hh.2.2⟩), if_pos h12, if_pos hs]
  · intro hh h12 hs
    unfold spiAttachCheck
    rw [if_neg (by push_neg; exact ⟨by omega, hh.2.1, hh.2.2⟩), if_pos h12, if_pos hs]
  · intro hh h12 hs
    unfold flashBeginCheck
    rw [if_neg (by push_neg; exact ⟨by omega, hh.2.1, hh.2.2⟩), if_pos h12, if_pos hs]
  · intro hh h12 hs
    unfold flashDataCheck
    rw [if_neg (by push_neg; exact ⟨by omega, hh.2.1, hh.2.2⟩), if_pos h12, if_pos hs]
  · unfold flashEndCheck
    split_ifs with h1 <;> simp_all [specHeaderOk] <;> omega

/-- Counterexample to C3 as stated: flashEnd accepts the 12-byte response
`01 04 00 00 00 00 00 00 01 06 00 00` whose trailing status byte
(bytes[len-4] = 0x01) is non-zero, so FLASH_END does not reject responses
with non-zero trailing status. -/
theorem claim_C3_counterexample :
    flashEndCheck [1, 4, 0, 0, 0, 0, 0, 0, 1, 6, 0, 0] = .ok
    ∧ 12 ≤ ([1, 4, 0, 0, 0, 0, 0, 0, 1, 6, 0, 0] : List Nat).length
    ∧ ([1, 4, 0, 0, 0, 0, 0, 0, 1, 6, 0, 0] : List Nat).getD
        (([1, 4, 0, 0, 0, 0, 0, 0, 1, 6, 0, 0] : List Nat).length - 4) 0 ≠ 0 := by
  decide

/-- Witness for C3: a fully valid 12-byte SYNC response is accepted. -/
theorem claim_C3_witness :
    syncCheck [1, 8, 0, 0, 0, 0, 0, 0, 0, 0, 0, 0] = .ok :=
  (claim_C3 [1, 8, 0, 0, 0, 0, 0, 0, 0, 0, 0, 0]).1.mpr (by decide)

theorem getD_drop_zero (l : List Nat) (i j : Nat) :
    (l.drop i).getD j 0 = l.getD (i + j) 0 := by
  simp [List.getD_eq_getElem?_getD, List.getElem?_drop]

theorem getD_replicate_ite (n i a : Nat) :
    (List.replicate n a).getD i 0 = if i < n then a else 0 := by
  rw [List.getD_eq_getElem?_getD, List.getElem?_replicate]
  split_ifs <;> rfl

/-- One block prepared by the `FlashData` loop (part_002 lines 455-468):
the slice `data[seq*blockSize : min((seq+1)*blockSize, len)]` padded with
0xFF bytes to exactly `blockSize`. -/
def blockForSeq (blockSize : Nat) (data : List Nat) (seq : Nat) : List Nat :=
  (data.drop (seq * blockSize)).take blockSize ++
    List.replicate (blockSize - ((data.drop (seq * blockSize)).take blockSize).length) 0xFF

/-- Total block count of the `FlashData` loop (part_002 line 448), computed
in Go `int` arithmetic (no 32-bit wrap). -/
def totalBlocksFor (blockSize len : Nat) : Nat := (len + blockSize - 1) / blockSize

/-- The sequence of (seq, block) pairs emitted by the `FlashData` loop
(part_002 lines 455-470), in loop order.  The Go loop counter is a uint32;
for `data.length < 2 ^ 32` it never wraps and equals this Nat model. -/
def flashBlocks (blockSize : Nat) (data : List Nat) : List (Nat × List Nat) :=
  (List.range (totalBlocksFor blockSize data.length)).map
    (fun seq => (seq, blockForSeq blockSize data seq))

/-- The `flashData` retry loop (part_002 lines 298-332): the payload and
checksum are computed once before the loop, so every attempt sends the
same frame; the loop stops after a successful attempt or after 3 tries.
`ok k` tells whether attempt `k` succeeds; the fuel starts at 3. -/
def flashDataGo (blk : List Nat) (seq : Nat) (ok : Nat → Bool) : Nat → Nat → List (List Nat)
  | 0, _ => []
  | fuel + 1, k =>
    flashDataFrame blk seq :: (if ok k then [] else flashDataGo blk seq ok fuel (k + 1))

/-- Frames sent on the wire by `flashData` for one block across retries. -/
def flashDataSent (blk : List Nat) (seq : Nat) (ok : Nat → Bool) : List (List Nat) :=
  flashDataGo blk seq ok 3 0

theorem flashDataGo_mem (blk : List Nat) (seq : Nat) (ok : Nat → Bool) :
    ∀ (fuel k : Nat) (fr : List Nat), fr ∈ flashDataGo blk seq ok fuel k →
      fr = flashDataFrame blk seq := by
  intro fuel
  induction fuel with
  | zero =>
    intro k fr h
    simp [flashDataGo] at h
  | succ n ih =>
    intro k fr h
    simp only [flashDataGo, List.mem_cons] at h
    rcases h with rfl | h
    · rfl
    · split_ifs at h with hok
      · simp at h
      · exact ih (k + 1) fr h

theorem flashDataGo_length (blk : List Nat) (seq : Nat) (ok : Nat → Bool) :
    ∀ (fuel k : Nat), (flashDataGo blk seq ok fuel k).length ≤ fuel := by
  intro fuel
  induction fuel with
  | zero => intro k; simp [flashDataGo]
  | succ n ih =>
    intro k
    simp only [flashDataGo, List.length_cons]
    split_ifs with hok
    · simp
    · have := ih (k + 1)
      omega

theorem blockForSeq_length (blockSize : Nat) (data : List Nat) (seq : Nat) :
    (blockForSeq blockSize data seq).length = blockSize := by
  have h : ((data.drop (seq * blockSize)).take blockSize).length ≤ blockSize := by
    simp [List.length_take]
  simp only [blockForSeq, List.length_append, List.length_replicate]
  omega

theorem blockForSeq_getD (blockSize : Nat) (data : List Nat) (seq j : Nat)
    (hj : j < blockSize) :
    (blockForSeq blockSize data seq).getD j 0 =
      if seq * blockSize + j < data.length then data.getD (seq * blockSize + j) 0
      else 0xFF := by
  have hlen : ((data.drop (seq * blockSize)).take blockSize).length =
      min blockSize (data.length - seq * blockSize) := by
    simp [List.length_take]
  by_cases hcase : seq * blockSize + j < data.length
  · have hjlt : j < ((data.drop (seq * blockSize)).take blockSize).length := by
      rw [hlen]; omega
    rw [blockForSeq, List.getD_append _ _ _ _ hjlt, if_pos hcase,
      List.getD_eq_getElem?_getD, List.getElem?_take_of_lt hj, List.getElem?_drop,
      List.getD_eq_getElem?_getD]
  · have hge : ((data.drop (seq * blockSize)).take blockSize).length ≤ j := by
      rw [hlen]; omega
    rw [blockForSeq, List.getD_append_right _ _ _ _ hge, getD_replicate_ite,
      if_pos (by omega), if_neg hcase]

/-- C2.  For every image shorter than 2^32 bytes the flash writer emits
FLASH_DATA blocks with sequence numbers exactly 0..num_blocks-1 in order
with no gaps or duplicates, every emitted block is exactly 1024 bytes,
block bytes past the image end are the padding byte 0xFF (and in-range
bytes are the image bytes); a retry of one block re-sends the identical
frame, hence the same seq, and at most 3 attempts are made. -/
theorem claim_C2 (data : List Nat) (hlen : data.length < 2 ^ 32) :
    ((flashBlocks ESP_FLASH_WRITE_SIZE data).map Prod.fst =
      List.range ((data.length + 1023) / 1024))
    ∧ (∀ p ∈ flashBlocks ESP_FLASH_WRITE_SIZE data, p.2.length = 1024)
    ∧ (∀ p ∈ flashBlocks ESP_FLASH_WRITE_SIZE data, ∀ j, j < 1024 →
        p.2.getD j 0 = if p.1 * 1024 + j < data.length then data.getD (p.1 * 1024 + j) 0
          else 0xFF)
    ∧ (∀ (blk : List Nat) (seq : Nat) (ok : Nat → Bool),
        ∀ fr ∈ flashDataSent blk seq ok, fr = flashDataFrame blk seq)
    ∧ (∀ (blk : List Nat) (seq : Nat) (ok : Nat → Bool),
        (flashDataSent blk seq ok).length ≤ 3) := by
  refine ⟨?_, ?_, ?_, ?_, ?_⟩
  · have ht : totalBlocksFor ESP_FLASH_WRITE_SIZE data.length = (data.length + 1023) / 1024 := by
      unfold totalBlocksFor ESP_FLASH_WRITE_SIZE
      omega
    simp only [flashBlocks, ht, List.map_map]
    have : (Prod.fst ∘ fun seq => (seq, blockForSeq ESP_FLASH_WRITE_SIZE data seq)) =
        fun seq : Nat => seq := rfl
    rw [this, List.map_id']
  · intro p hp
    show p.2.length = 1024
    simp only [flashBlocks, List.mem_map, List.mem_range] at hp
    obtain ⟨seq, hseq, rfl⟩ := hp
    exact blockForSeq_length _ _ _
  · intro p hp j hj
    simp only [flashBlocks, List.mem_map, List.mem_range] at hp
    obtain ⟨seq, hseq, rfl⟩ := hp
    exact blockForSeq_getD 1024 data seq j hj
  · intro blk seq ok fr hfr
    exact flashDataGo_mem blk seq ok 3 0 fr hfr
  · intro blk seq ok
    exact flashDataGo_length blk seq ok 3 0

/-- Witness for C2 at the empty image: zero blocks are emitted. -/
theorem claim_C2_witness :
    ([] : List Nat).length < 2 ^ 32
    ∧ (((flashBlocks ESP_FLASH_WRITE_SIZE ([] : List Nat)).map Prod.fst =
        List.range ((([] : List Nat).length + 1023) / 1024))
      ∧ (∀ p ∈ flashBlocks ESP_FLASH_WRITE_SIZE ([] : List Nat), p.2.length = 1024)
      ∧ (∀ p ∈ flashBlocks ESP_FLASH_WRITE_SIZE ([] : List Nat), ∀ j, j < 1024 →
          p.2.getD j 0 = if p.1 * 1024 + j < ([] : List Nat).length then
            ([] : List Nat).getD (p.1 * 1024 + j) 0 else 0xFF)
      ∧ (∀ (blk : List Nat) (seq : Nat) (ok : Nat → Bool),
          ∀ fr ∈ flashDataSent blk seq ok, fr = flashDataFrame blk seq)
      ∧ (∀ (blk : List Nat) (seq : Nat) (ok : Nat → Bool),
          (flashDataSent blk seq ok).length ≤ 3)) :=
  ⟨by norm_num, claim_C2 [] (by norm_num)⟩

/-- Per-command response check used when replaying the writer: dispatches
to the validation the source applies for that opcode. -/
def cmdCheck (cmd : Nat) (r : List Nat) : CmdResult :=
  if cmd = ESP_FLASH_BEGIN then flashBeginCheck r
  else if cmd = ESP_FLASH_DATA then flashDataCheck r
  else flashEndCheck r

/-- The ordered command/payload sequence issued by the flash-writer part of
`FlashData` (part_002 lines 439-492) when every response is accepted:
FLASH_BEGIN with `uint32(len(data))`, one FLASH_DATA per block, FLASH_END.
-/
def FlashDataCommands (blockSize : Nat) (data : List Nat) (offset : Nat) :
    List (Nat × List Nat) :=
  (ESP_FLASH_BEGIN, flashBeginData blockSize (data.length % 2 ^ 32) offset)
    :: ((flashBlocks blockSize data).map
        (fun p => (ESP_FLASH_DATA, flashDataHeader p.2 p.1 ++ p.2))
      ++ [(ESP_FLASH_END, le32 0)])

/-- Replay the writer's command sequence against one response per command:
succeeds exactly when every response passes that command's check. -/
def runWriter : List (Nat × List Nat) → List (List Nat) → Bool
  | [], _ => true
  | _ :: _, [] => false
  | (c, _) :: rest, r :: rs => if cmdCheck c r = .ok then runWriter rest rs else false

/-- C10.  For a zero-length image the writer does not reject or
special-case the input: it issues FLASH_BEGIN with erase_size = 0 and
num_blocks = 0, sends zero FLASH_DATA packets, issues FLASH_END, and
succeeds when the target accepts both commands. -/
theorem claim_C10 (offset : Nat) (r1 r2 : List Nat)
    (h1 : flashBeginCheck r1 = .ok) (h2 : flashEndCheck r2 = .ok) :
    FlashDataCommands ESP_FLASH_WRITE_SIZE [] offset =
      [(ESP_FLASH_BEGIN, le32 0 ++ le32 0 ++ le32 1024 ++ le32 offset),
        (ESP_FLASH_END, le32 0)]
    ∧ flashBlocks ESP_FLASH_WRITE_SIZE [] = []
    ∧ runWriter (FlashDataCommands ESP_FLASH_WRITE_SIZE [] offset) [r1, r2] = true := by
  have hblocks : flashBlocks ESP_FLASH_WRITE_SIZE ([] : List Nat) = [] := rfl
  have hcmds : FlashDataCommands ESP_FLASH_WRITE_SIZE [] offset =
      [(ESP_FLASH_BEGIN, le32 0 ++ le32 0 ++ le32 1024 ++ le32 offset),
        (ESP_FLASH_END, le32 0)] := by
    have hz : eraseSizeFor (([] : List Nat).length % 2 ^ 32) = 0 := by decide
    have hb : numBlocksFor 1024 (([] : List Nat).length % 2 ^ 32) = 0 := by decide
    have hbl : flashBlocks 1024 ([] : List Nat) = [] := rfl
    simp only [FlashDataCommands, flashBeginData, ESP_FLASH_WRITE_SIZE, hz, hb, hbl,
      List.map_nil, List.nil_append]
  refine ⟨hcmds, hblocks, ?_⟩
  rw [hcmds]
  simp only [runWriter]
  rw [show cmdCheck ESP_FLASH_BEGIN r1 = flashBeginCheck r1 from by
      unfold cmdCheck; rw [if_pos rfl],
    h1, if_pos rfl,
    show cmdCheck ESP_FLASH_END r2 = flashEndCheck r2 from by
      unfold cmdCheck
      rw [if_neg (by decide : ¬ESP_FLASH_END = ESP_FLASH_BEGIN),
        if_neg (by decide : ¬ESP_FLASH_END = ESP_FLASH_DATA)],
    h2, if_pos rfl]

/-- Witness for C10 at offset 0x10000 with minimal accepted responses. -/
theorem claim_C10_witness :
    FlashDataCommands ESP_FLASH_WRITE_SIZE [] 65536 =
      [(ESP_FLASH_BEGIN, le32 0 ++ le32 0 ++ le32 1024 ++ le32 65536),
        (ESP_FLASH_END, le32 0)]
    ∧ flashBlocks ESP_FLASH_WRITE_SIZE [] = []
    ∧ runWriter (FlashDataCommands ESP_FLASH_WRITE_SIZE [] 65536)
        [[1, 2, 0, 0, 0, 0, 0, 0], [1, 4, 0, 0, 0, 0, 0, 0]] = true :=
  claim_C10 65536 [1, 2, 0, 0, 0, 0, 0, 0] [1, 4, 0, 0, 0, 0, 0, 0]
    (by decide) (by decide)

/-- Outcome of the sync engine: success at a given attempt index, or sync
exhaustion after every attempt failed. -/
inductive SyncOutcome where
  | success (attempt : Nat)
  | syncExhausted
deriving DecidableEq

/-- Modelled from the spec: the number of main handshake attempts of the
sync engine ("Up to 15 attempts", spec 4.5).  The retrying `sync`
implementation is not among the source files under src; `part_002` calls
`f.sync()` whose body lives in a missing file, and only an older
single-attempt `sync` (esp32_protocol.go) is present. -/
def syncAttemptLimit : Nat := 15

/-- Modelled from the spec: the number of SYNC attempts after the forced
stabilization fallback ("then 5 more SYNC attempts at 2 s timeout",
spec 4.5). -/
def syncFallbackAttempts : Nat := 5

/-- First attempt index in `[start, start + n)` whose SYNC exchange
satisfies the success predicate, given the per-attempt outcome oracle. -/
def firstSyncSuccess (ok : Nat → Bool) : Nat → Nat → Option Nat
  | 0, _ => none
  | n + 1, start => if ok start then some start else firstSyncSuccess ok n (start + 1)

/-- Modelled from the spec: the sync engine (spec 4.5).  It runs up to 15
main attempts (flush, send the 36-byte SYNC payload, read with the
noise-tolerant parser, wait 150 ms); if all fail it performs the forced
stabilization reset pulses and 5 more attempts at 2 s timeout, and only
then reports sync exhaustion.  `ok k` abstracts whether attempt `k`
receives an accepted SYNC response. -/
def syncEngine (ok : Nat → Bool) : SyncOutcome :=
  match firstSyncSuccess ok syncAttemptLimit 0 with
  | some k => .success k
  | none =>
    match firstSyncSuccess ok syncFallbackAttempts syncAttemptLimit with
    | some k => .success k
    | none => .syncExhausted

theorem firstSyncSuccess_none_iff (ok : Nat → Bool) :
    ∀ (n start : Nat), firstSyncSuccess ok n start = none ↔
      ∀ j, j < n → ok (start + j) = false := by
  intro n
  induction n with
  | zero => intro start; simp [firstSyncSuccess]
  | succ m ih =>
    intro start
    simp only [firstSyncSuccess]
    by_cases h : ok start = true
    · rw [if_pos h]
      refine iff_of_false (by simp) ?_
      intro hall
      have h0 := hall 0 (by omega)
      rw [Nat.add_zero] at h0
      rw [h] at h0
      exact Bool.noConfusion h0
    · rw [if_neg h]
      rw [ih (start + 1)]
      constructor
      · intro hall j hj
        cases j with
        | zero =>
          rw [Nat.add_zero]
          exact Bool.not_eq_true _ |>.mp h
        | succ i =>
          have hi := hall i (by omega)
          rw [show start + (i + 1) = start + 1 + i from by omega]
          exact hi
      · intro hall j hj
        have hi := hall (j + 1) (by omega)
        rw [show start + 1 + j = start + (j + 1) from by omega]
        exact hi

theorem firstSyncSuccess_some (ok : Nat → Bool) :
    ∀ (n start k : Nat), firstSyncSuccess ok n start = some k →
      ok k = true ∧ start ≤ k ∧ k < start + n := by
  intro n
  induction n with
  | zero => intro start k h; simp [firstSyncSuccess] at h
  | succ m ih =>
    intro start k h
    simp only [firstSyncSuccess] at h
    by_cases ho : ok start = true
    · rw [if_pos ho] at h
      obtain rfl : start = k := by simpa using h
      exact ⟨ho, Nat.le_refl _, by omega⟩
    · rw [if_neg ho] at h
      obtain ⟨h1, h2, h3⟩ := ih (start + 1) k h
      exact ⟨h1, by omega, by omega⟩

theorem firstSyncSuccess_find (ok : Nat → Bool) :
    ∀ (n start k : Nat), start ≤ k → k < start + n → ok k = true →
      (∀ j, start ≤ j → j < k → ok j = false) →
      firstSyncSuccess ok n start = some k := by
  intro n
  induction n with
  | zero => intro start k h1 h2 _ _; omega
  | succ m ih =>
    intro start k h1 h2 hk hprev
    simp only [firstSyncSuccess]
    by_cases he : start = k
    · subst he
      rw [if_pos hk]
    · have hf : ok start = false := hprev start (Nat.le_refl _) (by omega)
      rw [if_neg (by simp [hf])]
      exact ih (start + 1) k (by omega) (by omega) hk (fun j hj1 hj2 => hprev j (by omega) hj2)

theorem syncEngine_eq_of_some (ok : Nat → Bool) (k : Nat)
    (h : firstSyncSuccess ok syncAttemptLimit 0 = some k) :
    syncEngine ok = .success k := by
  unfold syncEngine
  rw [h]

theorem syncEngine_eq_of_none_some (ok : Nat → Bool) (k : Nat)
    (h1 : firstSyncSuccess ok syncAttemptLimit 0 = none)
    (h2 : firstSyncSuccess ok syncFallbackAttempts syncAttemptLimit = some k) :
    syncEngine ok = .success k := by
  unfold syncEngine
  rw [h1, h2]

theorem syncEngine_eq_exhausted (ok : Nat → Bool)
    (h1 : firstSyncSuccess ok syncAttemptLimit 0 = none)
    (h2 : firstSyncSuccess ok syncFallbackAttempts syncAttemptLimit = none) :
    syncEngine ok = .syncExhausted := by
  unfold syncEngine
  rw [h1, h2]

theorem syncEngine_success_inv (ok : Nat → Bool) (k : Nat)
    (h : syncEngine ok = .success k) :
    firstSyncSuccess ok syncAttemptLimit 0 = some k ∨
      (firstSyncSuccess ok syncAttemptLimit 0 = none ∧
        firstSyncSuccess ok syncFallbackAttempts syncAttemptLimit = some k) := by
  cases hA : firstSyncSuccess ok syncAttemptLimit 0 with
  | some a =>
    rw [syncEngine_eq_of_some ok a hA] at h
    injection h with hak
    subst hak
    exact Or.inl rfl
  | none =>
    cases hB : firstSyncSuccess ok syncFallbackAttempts syncAttemptLimit with
    | some b =>
      rw [syncEngine_eq_of_none_some ok b hA hB] at h
      injection h with hak
      subst hak
      exact Or.inr ⟨rfl, rfl⟩
    | none =>
      rw [syncEngine_eq_exhausted ok hA hB] at h
      exact absurd h (by simp)

theorem syncEngine_exhausted_iff (ok : Nat → Bool) :
    syncEngine ok = .syncExhausted ↔
      (firstSyncSuccess ok syncAttemptLimit 0 = none ∧
        firstSyncSuccess ok syncFallbackAttempts syncAttemptLimit = none) := by
  constructor
  · intro h
    cases hA : firstSyncSuccess ok syncAttemptLimit 0 with
    | some a =>
      rw [syncEngine_eq_of_some ok a hA] at h
      exact absurd h (by simp)
    | none =>
      cases hB : firstSyncSuccess ok syncFallbackAttempts syncAttemptLimit with
      | some b =>
        rw [syncEngine_eq_of_none_some ok b hA hB] at h
        exact absurd h (by simp)
      | none => exact ⟨rfl, rfl⟩
  · intro h
    exact syncEngine_eq_exhausted ok h.1 h.2

/-- C7.  The sync engine performs up to 15 main SYNC attempts and, if all
fail, a forced-stabilization fallback with 5 further attempts; it reports
sync exhaustion exactly when all 20 attempts fail, succeeds at the first
successful attempt, and in particular does not give up after a single
failed attempt; the SYNC payload is 36 bytes. -/
theorem claim_C7 (ok : Nat → Bool) :
    (syncEngine ok = .syncExhausted ↔ ∀ k, k < 20 → ok k = false)
    ∧ (∀ k, syncEngine ok = .success k → ok k = true ∧ k < 20)
    ∧ (∀ k, k < 20 → ok k = true → (∀ j, j < k → ok j = false) →
        syncEngine ok = .success k)
    ∧ syncAttemptLimit = 15 ∧ syncFallbackAttempts = 5 ∧ syncPayload.length = 36 := by
  refine ⟨?_, ?_, ?_, rfl, rfl, by decide⟩
  · constructor
    · intro h k hk
      obtain ⟨hA, hB⟩ := (syncEngine_exhausted_iff ok).mp h
      have hA2 : ∀ j, j < 15 → ok (0 + j) = false := (firstSyncSuccess_none_iff ok 15 0).mp hA
      have hB2 : ∀ j, j < 5 → ok (15 + j) = false := (firstSyncSuccess_none_iff ok 5 15).mp hB
      by_cases hk15 : k < 15
      · have := hA2 k hk15
        rwa [Nat.zero_add] at this
      · have := hB2 (k - 15) (by omega)
        rwa [show 15 + (k - 15) = k from by omega] at this
    · intro hall
      apply (syncEngine_exhausted_iff ok).mpr
      constructor
      · exact (firstSyncSuccess_none_iff ok 15 0).mpr
          (fun j hj => by rw [Nat.zero_add]; exact hall j (by omega))
      · exact (firstSyncSuccess_none_iff ok 5 15).mpr
          (fun j hj => hall (15 + j) (by omega))
  · intro k h
    rcases syncEngine_success_inv ok k h with hA | ⟨hA, hB⟩
    · obtain ⟨h1, h2, h3⟩ := firstSyncSuccess_some ok 15 0 k hA
      exact ⟨h1, by omega⟩
    · obtain ⟨h1, h2, h3⟩ := firstSyncSuccess_some ok 5 15 k hB
      exact ⟨h1, by omega⟩
  · intro k hk hok hprev
    by_cases hk15 : k < 15
    · exact syncEngine_eq_of_some ok k
        (firstSyncSuccess_find ok 15 0 k (by omega) (by omega) hok
          (fun j _ hj2 => hprev j hj2))
    · have hA : firstSyncSuccess ok syncAttemptLimit 0 = none :=
        (firstSyncSuccess_none_iff ok 15 0).mpr
          (fun j hj => by rw [Nat.zero_add]; exact hprev j (by omega))
      have hB : firstSyncSuccess ok syncFallbackAttempts syncAttemptLimit = some k :=
        firstSyncSuccess_find ok 5 15 k (by omega) (by omega) hok
          (fun j _ hj2 => hprev j hj2)
      exact syncEngine_eq_of_none_some ok k hA hB

/-- Witness for C7: with an oracle failing attempt 0 and succeeding at
attempt 1, the engine does not give up and reports success at attempt 1. -/
theorem claim_C7_witness :
    syncEngine (fun k => decide (k = 1)) = SyncOutcome.success 1 :=
  (claim_C7 (fun k => decide (k = 1))).2.2.1 1 (by norm_num) (by decide)
    (fun j hj => by
      have hj0 : j = 0 := by omega
      subst hj0
      decide)

/-- The candidate slice `rawData[i : j+1]` examined by the frame scanner. -/
def sliceFromTo (raw : List Nat) (i j : Nat) : List Nat :=
  (raw.drop i).take (j + 1 - i)

/-- Inner scan of the noise-tolerant parser: starting from candidate end
index `j`, find an END byte closing a decodable frame that starts at `i`;
on a decode failure continue with the next END candidate.  This mirrors
the nested loop of `readResponse` (esp32_protocol.go lines 276-303), which
the spec describes for the current parser as well.  The fuel starts at
`raw.length` and bounds the scan. -/
def tryEnds (raw : List Nat) (i : Nat) : Nat → Nat → Option (List Nat)
  | 0, _ => none
  | fuel + 1, j =>
    if j < raw.length then
      (if raw.getD j 0 = SLIP_END then
        (match slipDecode (sliceFromTo raw i j) with
          | .ok d => some d
          | .malformedFrame => tryEnds raw i fuel (j + 1)
          | .invalidEscape => tryEnds raw i fuel (j + 1))
      else tryEnds raw i fuel (j + 1))
    else none

/-- Outer scan of the noise-tolerant parser: try every index holding an
END byte as a frame start. -/
def scanStarts (raw : List Nat) : Nat → Nat → Option (List Nat)
  | 0, _ => none
  | fuel + 1, i =>
    if i < raw.length then
      (if raw.getD i 0 = SLIP_END then
        (match tryEnds raw i raw.length (i + 1) with
          | some d => some d
          | none => scanStarts raw fuel (i + 1))
      else scanStarts raw fuel (i + 1))
    else none

/-- First valid SLIP frame found in the accumulated bytes. -/
def findValidFrame (raw : List Nat) : Option (List Nat) :=
  scanStarts raw raw.length 0

/-- Modelled from the spec: the degraded-fallback scan of the current
noise-tolerant parser (`readResponseRobust`, whose body is not among the
source files under src — `part_002` calls it).  Per spec 4.3 the raw
buffer is returned only if it contains the pattern `0x01 <cmd>` within at
least 8 contiguous bytes; this returns the sub-buffer starting at the
first such position. -/
def findFallback (cmd : Nat) (raw : List Nat) : Nat → Nat → Option (List Nat)
  | 0, _ => none
  | fuel + 1, i =>
    if i + 8 ≤ raw.length ∧ raw.getD i 0 = 0x01 ∧ raw.getD (i + 1) 0 = cmd then
      some (raw.drop i)
    else findFallback cmd raw fuel (i + 1)

/-- Result of the noise-tolerant read: a decoded SLIP frame, the degraded
raw fallback, or an error (no usable response). -/
inductive ReadResult where
  | frame (bytes : List Nat)
  | rawFallback (bytes : List Nat)
  | noResponse
deriving DecidableEq

/-- Modelled from the spec: the current noise-tolerant response parser
(spec 4.3): scan for any decodable END..END substring; if none is found
return the raw sub-buffer only when it contains `0x01 <cmd>` in ≥ 8
contiguous bytes; otherwise report an error rather than unparsed bytes. -/
def readResponseRobustModel (cmd : Nat) (raw : List Nat) : ReadResult :=
  match findValidFrame raw with
  | some d => .frame d
  | none =>
    match findFallback cmd raw raw.length 0 with
    | some sub => .rawFallback sub
    | none => .noResponse

theorem findFallback_some (cmd : Nat) (raw : List Nat) :
    ∀ (fuel i : Nat) (sub : List Nat), findFallback cmd raw fuel i = some sub →
      8 ≤ sub.length ∧ sub.getD 0 0 = 0x01 ∧ sub.getD 1 0 = cmd := by
  intro fuel
  induction fuel with
  | zero => intro i sub h; simp [findFallback] at h
  | succ n ih =>
    intro i sub h
    simp only [findFallback] at h
    split_ifs at h with hc
    · obtain ⟨hlen, h0, h1⟩ := hc
      obtain rfl : raw.drop i = sub := by simpa using h
      refine ⟨?_, ?_, ?_⟩
      · rw [List.length_drop]
        omega
      · rw [getD_drop_zero, Nat.add_zero]
        exact h0
      · rw [getD_drop_zero]
        exact h1
    · exact ih (i + 1) sub h

theorem findFallback_none (cmd : Nat) (raw : List Nat)
    (hno : ∀ i, i + 8 ≤ raw.length → ¬(raw.getD i 0 = 0x01 ∧ raw.getD (i + 1) 0 = cmd)) :
    ∀ fuel i, findFallback cmd raw fuel i = none := by
  intro fuel
  induction fuel with
  | zero => intro i; rfl
  | succ n ih =>
    intro i
    simp only [findFallback]
    have hcond : ¬(i + 8 ≤ raw.length ∧ raw.getD i 0 = 0x01 ∧ raw.getD (i + 1) 0 = cmd) := by
      rintro ⟨hlen, hpat⟩
      exact hno i hlen hpat
    rw [if_neg hcond]
    exact ih (i + 1)

/-- C8.  The noise-tolerant parser returns a raw sub-buffer as a degraded
fallback only when that buffer contains the pattern `0x01 <cmd>` within at
least 8 contiguous bytes (so the returned buffer is at least 8 bytes long
and starts `0x01 <cmd>`); when no valid frame and no such pattern exists
it reports an error instead of returning unparsed bytes. -/
theorem claim_C8 :
    (∀ (cmd : Nat) (raw sub : List Nat),
      readResponseRobustModel cmd raw = .rawFallback sub →
        8 ≤ sub.length ∧ sub.getD 0 0 = 0x01 ∧ sub.getD 1 0 = cmd)
    ∧ (∀ (cmd : Nat) (raw : List Nat), findValidFrame raw = none →
        (∀ i, i + 8 ≤ raw.length →
          ¬(raw.getD i 0 = 0x01 ∧ raw.getD (i + 1) 0 = cmd)) →
        readResponseRobustModel cmd raw = .noResponse) := by
  constructor
  · intro cmd raw sub h
    unfold readResponseRobustModel at h
    cases hA : findValidFrame raw with
    | some d =>
      rw [hA] at h
      simp at h
    | none =>
      rw [hA] at h
      cases hB : findFallback cmd raw raw.length 0 with
      | some s =>
        rw [hB] at h
        simp at h
        subst h
        exact findFallback_some cmd raw raw.length 0 _ hB
      | none =>
        rw [hB] at h
        simp at h
  · intro cmd raw hA hno
    unfold readResponseRobustModel
    rw [hA, findFallback_none cmd raw hno raw.length 0]

/-- Witness for C8: an 8-byte buffer with no SLIP frame but beginning
`0x01 0x08` is returned as the degraded fallback for SYNC and satisfies
the pattern facts. -/
theorem claim_C8_witness :
    readResponseRobustModel 8 [1, 8, 0, 0, 0, 0, 0, 0] =
      .rawFallback [1, 8, 0, 0, 0, 0, 0, 0]
    ∧ (8 ≤ ([1, 8, 0, 0, 0, 0, 0, 0] : List Nat).length
      ∧ ([1, 8, 0, 0, 0, 0, 0, 0] : List Nat).getD 0 0 = 0x01
      ∧ ([1, 8, 0, 0, 0, 0, 0, 0] : List Nat).getD 1 0 = 8) :=
  ⟨by decide, claim_C8.1 8 [1, 8, 0, 0, 0, 0, 0, 0] [1, 8, 0, 0, 0, 0, 0, 0] (by decide)⟩

/-- The chip variant enumeration (esp32_types.go lines 46-54). -/
inductive ChipType where
  | CHIP_UNKNOWN
  | CHIP_ESP32
  | CHIP_ESP32S2
  | CHIP_ESP32S3
  | CHIP_ESP32C3
deriving DecidableEq

/-- The name of each chip variant (`ChipType.String`, esp32_types.go lines
56-69). -/
def chipTypeString : ChipType → String
  | .CHIP_ESP32 => "ESP32"
  | .CHIP_ESP32S2 => "ESP32-S2"
  | .CHIP_ESP32S3 => "ESP32-S3"
  | .CHIP_ESP32C3 => "ESP32-C3"
  | .CHIP_UNKNOWN => "Unknown"

/-- Chip-detection magic `ESP32_CHIP_MAGIC` (esp32_types.go). -/
def ESP32_CHIP_MAGIC : Nat := 0x00f01d83

/-- Chip-detection magic `ESP32S2_CHIP_MAGIC` (esp32_types.go). -/
def ESP32S2_CHIP_MAGIC : Nat := 0x000007c6

/-- Chip-detection magic `ESP32S3_CHIP_MAGIC` (esp32_types.go). -/
def ESP32S3_CHIP_MAGIC : Nat := 0x00000009

/-- Chip-detection magic `ESP32C3_CHIP_MAGIC` (esp32_types.go). -/
def ESP32C3_CHIP_MAGIC : Nat := 0x6921506f

/-- Modelled from the spec: the magic-to-variant table of `detectChip`
(spec 4.6), whose body is not among the source files under src (`part_002`
calls `f.detectChip()`); the magic constants are those of esp32_types.go.
An unknown magic defaults to ESP32. -/
def magicToChip (m : Nat) : ChipType :=
  if m = ESP32_CHIP_MAGIC then .CHIP_ESP32
  else if m = ESP32S2_CHIP_MAGIC then .CHIP_ESP32S2
  else if m = ESP32S3_CHIP_MAGIC then .CHIP_ESP32S3
  else if m = ESP32C3_CHIP_MAGIC then .CHIP_ESP32C3
  else .CHIP_ESP32

/-- Modelled from the spec: `detectChip` (spec 4.6) reads the detection
register; `none` abstracts any read error.  Detection is never fatal: an
error or unknown magic defaults the variant to ESP32 and the session
proceeds. -/
def detectChip (readMagic : Option Nat) : ChipType :=
  match readMagic with
  | some m => magicToChip m
  | none => .CHIP_ESP32

/-- C9.  Chip detection never aborts the flash pipeline: every detection
outcome yields a chip variant (never Unknown), the fixed table maps
0x00f01d83 to ESP32, 0x000007c6 to ESP32-S2, 0x00000009 to ESP32-S3 and
0x6921506f to ESP32-C3, and any unknown magic or detection error defaults
to ESP32, letting the session proceed. -/
theorem claim_C9 (r : Option Nat) :
    detectChip r ≠ ChipType.CHIP_UNKNOWN
    ∧ detectChip (some ESP32_CHIP_MAGIC) = ChipType.CHIP_ESP32
    ∧ detectChip (some ESP32S2_CHIP_MAGIC) = ChipType.CHIP_ESP32S2
    ∧ detectChip (some ESP32S3_CHIP_MAGIC) = ChipType.CHIP_ESP32S3
    ∧ detectChip (some ESP32C3_CHIP_MAGIC) = ChipType.CHIP_ESP32C3
    ∧ detectChip none = ChipType.CHIP_ESP32
    ∧ (∀ m : Nat, m ≠ ESP32_CHIP_MAGIC → m ≠ ESP32S2_CHIP_MAGIC →
        m ≠ ESP32S3_CHIP_MAGIC → m ≠ ESP32C3_CHIP_MAGIC →
        detectChip (some m) = ChipType.CHIP_ESP32)
    ∧ chipTypeString (detectChip (some ESP32S2_CHIP_MAGIC)) = "ESP32-S2"
    ∧ chipTypeString (detectChip none) = "ESP32" := by
  refine ⟨?_, by decide, by decide, by decide, by decide, rfl, ?_, by decide, rfl⟩
  · cases r with
    | none => decide
    | some m =>
      show magicToChip m ≠ ChipType.CHIP_UNKNOWN
      unfold magicToChip
      split_ifs <;> decide
  · intro m h1 h2 h3 h4
    show magicToChip m = ChipType.CHIP_ESP32
    unfold magicToChip
    rw [if_neg h1, if_neg h2, if_neg h3, if_neg h4]

/-- Witness for C9: the unknown magic 5 defaults to ESP32. -/
theorem claim_C9_witness : detectChip (some 5) = ChipType.CHIP_ESP32 :=
  (claim_C9 (some 5)).2.2.2.2.2.2.1 5 (by decide) (by decide) (by decide) (by decide)
